import Mathlib

/-!
# M41T60 real-time-clock driver (`src/rtc.c`): a shallow embedding

The driver's C functions are transcribed as Lean functions with the same names.

* `int` values are modelled as `Int`.  Arithmetic that can leave the 32-bit
  range on caller-supplied data (the `++`/`+= 1900` of the ioctl path) is
  wrapped explicitly with `wrap32`; every other intermediate value is bounded
  far below `2^31` by the masks and range checks that precede it.
* C `/` and `%` are `Int.tdiv` and `Int.tmod` (truncation toward zero);
  `&`, `|`, `<<`, `>>` are `Int.land`, `Int.lor`, `<<<`, `>>>`
  (two's complement on unbounded integers).
* Text buffers are lists of byte values (`List Nat`); reading `input[i]` is
  `input.getD i 0`.
* The I2C bus is a register file together with the log of the calls issued
  on it; a write stores the byte, a read echoes the stored byte.
* The semaphore `file_lock` is a counter; `down` on a zero counter does not
  return, which the model renders as `none`.
-/

namespace Rtc

/-! ## Data model (`linux/rtc.h`, `rtc.h`) -/

/-- The kernel's `struct rtc_time`: nine `int` fields. -/
structure rtc_time where
  tm_sec : Int
  tm_min : Int
  tm_hour : Int
  tm_mday : Int
  tm_mon : Int
  tm_year : Int
  tm_wday : Int
  tm_yday : Int
  tm_isdst : Int
  deriving DecidableEq, Repr

/-- The driver's `struct rtc_status` (`rtc.h`). -/
structure rtc_status where
  stop : Int
  interrupt : Int
  calibration : Int
  deriving DecidableEq, Repr

/-- One call issued on the bus. -/
inductive BusCall where
  | read (command : Nat)
  | write (command : Nat) (value : Nat)
  deriving DecidableEq, Repr

/-- The clock chip behind `rtc_client`: the content of its registers and the
calls issued so far (oldest first). -/
structure Bus where
  regs : Nat → Nat
  calls : List BusCall

/-- The driver's global state: the chip, the flag `is_reading` and the count
of the semaphore `file_lock`. -/
structure Driver where
  bus : Bus
  is_reading : Bool
  file_lock : Nat

/-! ## Kernel services used by the driver -/

/-- Modelled from the spec: the bus collaborator `read_register`
(`i2c_smbus_read_byte_data` of the kernel's I2C core, not part of this
repository), synchronous and infallible: it echoes the stored byte and the
call is logged. -/
def i2c_smbus_read_byte_data (b : Bus) (command : Nat) : Int × Bus :=
  ((b.regs command : Int), { b with calls := b.calls ++ [BusCall.read command] })

/-- Modelled from the spec: the bus collaborator `write_register`
(`i2c_smbus_write_byte_data` of the kernel's I2C core, not part of this
repository).  Its `value` parameter is a `u8`, so the `int` argument is
truncated to its low byte, which the register then stores. -/
def i2c_smbus_write_byte_data (b : Bus) (command : Nat) (value : Int) : Bus :=
  { regs := fun a => if a = command then (value % 256).toNat else b.regs a
    calls := b.calls ++ [BusCall.write command (value % 256).toNat] }

/-- Modelled from the spec: the macro `BCD2BIN` of `linux/bcd.h` (not part of
this repository), `to_binary`: high nibble = tens, low nibble = units,
`((val) & 0x0f) + ((val) >> 4) * 10`. -/
def BCD2BIN (val : Int) : Int :=
  Int.land val 0x0f + (val >>> (4 : Int)) * 10

/-- Modelled from the spec: the macro `BIN2BCD` of `linux/bcd.h` (not part of
this repository), `to_bcd`: `(((val) / 10) << 4) + (val) % 10`. -/
def BIN2BCD (val : Int) : Int :=
  ((Int.tdiv val 10) <<< (4 : Int)) + Int.tmod val 10

/-- Two's-complement wrap of an integer into the range of a 32-bit `int`. -/
def wrap32 (x : Int) : Int :=
  (x + 2147483648) % 4294967296 - 2147483648

/-- Modelled from the spec: the kernel semaphore operation `down` (not part of
this repository), a blocking acquire: it takes one unit, and does not return
while the count is zero (`none`). -/
def down (count : Nat) : Option Nat :=
  if count = 0 then none else some (count - 1)

/-- Modelled from the spec: the kernel semaphore operation `up` (not part of
this repository): it gives one unit back. -/
def up (count : Nat) : Nat :=
  count + 1

/-! ## Tables (`rtc.c`, lines 15-56) -/

/-- The bytes of an ASCII string. -/
def bytes (s : String) : List Nat :=
  s.toList.map Char.toNat

/-- The table `months`: the twelve German month names. -/
def months : List (List Nat) :=
  [bytes "Januar", bytes "Februar", bytes "Maerz", bytes "April", bytes "Mai",
   bytes "Juni", bytes "Juli", bytes "August", bytes "September",
   bytes "Oktober", bytes "November", bytes "Dezember"]

/-- The table `month_days`. -/
def month_days : List Int :=
  [31, 28, 31, 30, 31, 30, 31, 31, 30, 31, 30, 31]

/-- The table `month_days_leap_year`. -/
def month_days_leap_year : List Int :=
  [31, 29, 31, 30, 31, 30, 31, 31, 30, 31, 30, 31]

/-! ## Calendar validation (`rtc.c`, lines 510-565 and 592-595) -/

/-- `is_leap_year(unsigned int year)`:
`(!(year % 4) && (year % 100)) || !(year % 400)`. -/
def is_leap_year (year : Nat) : Bool :=
  (year % 4 == 0 && year % 100 != 0) || year % 400 == 0

/-- `is_valid_time(time, strict_hwclock)`.  The table lookup happens only for
`1 <= tm_mon <= 12`, so the index `tm_mon - 1` is inside both tables; the
argument of `is_leap_year` is between 2000 and 2399 there, so its conversion
to `unsigned int` is exact. -/
def is_valid_time (time : rtc_time) (strict_hwclock : Bool) : Bool :=
  if 2000 ≤ time.tm_year ∧ time.tm_year ≤ 2399 then
    if 1 ≤ time.tm_mon ∧ time.tm_mon ≤ 12
        ∧ 1 ≤ time.tm_mday ∧ time.tm_mday ≤ 31
        ∧ 0 ≤ time.tm_hour ∧ time.tm_hour ≤ 23
        ∧ 0 ≤ time.tm_min ∧ time.tm_min ≤ 59
        ∧ 0 ≤ time.tm_sec ∧ time.tm_sec ≤ 59 then
      let leap := is_leap_year time.tm_year.toNat
      let month_index := (time.tm_mon - 1).toNat
      let month_max : Int :=
        if leap then month_days.getD month_index 0
        else month_days_leap_year.getD month_index 0
      if time.tm_mon ≤ month_max then
        if strict_hwclock then
          if time.tm_year = 2038 then
            if time.tm_mon ≤ 1 ∧ time.tm_mday ≤ 19 ∧ time.tm_hour ≤ 3
                ∧ time.tm_min ≤ 14 ∧ time.tm_sec ≤ 8 then true
            else false
          else if time.tm_year > 2038 then false
          else true
        else true
      else false
    else false
  else false

/-! ## Register mapping (`rtc.c`, lines 336-407 and 567-590) -/

/-- `get_status(client)`: three register reads (0, 1, 7), masked to the stop
bit, the interrupt bit and the five calibration bits. -/
def get_status (b : Bus) : rtc_status × Bus :=
  let (stop, b) := i2c_smbus_read_byte_data b 0
  let (interrupt, b) := i2c_smbus_read_byte_data b 1
  let (calibration, b) := i2c_smbus_read_byte_data b 7
  let stop := Int.land stop 0x80
  let interrupt := Int.land interrupt 0x80
  let calibration := Int.land calibration 0x1F
  ({ stop := stop, interrupt := interrupt, calibration := calibration }, b)

/-- `read_time(client)`: seven register reads (0..6), masking, BCD decoding and
reconstruction of the year. -/
def read_time (b : Bus) : rtc_time × Bus :=
  let (second, b) := i2c_smbus_read_byte_data b 0
  let (minute, b) := i2c_smbus_read_byte_data b 1
  let (hour, b) := i2c_smbus_read_byte_data b 2
  let (day_of_week, b) := i2c_smbus_read_byte_data b 3
  let (day_of_month, b) := i2c_smbus_read_byte_data b 4
  let (month_century, b) := i2c_smbus_read_byte_data b 5
  let (year, b) := i2c_smbus_read_byte_data b 6
  let second := Int.land second 0x7F
  let minute := Int.land minute 0x7F
  let hour := Int.land hour 0x3F
  let day_of_week := Int.land day_of_week 0x07
  let day_of_month := Int.land day_of_month 0x3F
  let month := Int.land month_century 0x1F
  let century := Int.land month_century 0xC0
  let century := century >>> (6 : Int)
  let second := BCD2BIN second
  let minute := BCD2BIN minute
  let hour := BCD2BIN hour
  let _day_of_week := BCD2BIN day_of_week
  let day_of_month := BCD2BIN day_of_month
  let month := BCD2BIN month
  let century := BCD2BIN century
  let year := BCD2BIN year
  let year := year + 2000
  let year := year + 100 * century
  ({ tm_sec := second, tm_min := minute, tm_hour := hour, tm_mday := day_of_month,
     tm_mon := month, tm_year := year, tm_wday := 0, tm_yday := 0, tm_isdst := 0 }, b)

/-- `write_time(client, time, status)`: BCD encoding, packing of century and
month, the two status bits, then six register writes (0, 1, 2, 4, 5, 6). -/
def write_time (b : Bus) (time : rtc_time) (status : rtc_status) : Bus :=
  let seconds_bcd := BIN2BCD time.tm_sec
  let minutes_bcd := BIN2BCD time.tm_min
  let hours_bcd := BIN2BCD time.tm_hour
  let day_bcd := BIN2BCD time.tm_mday
  let year_bcd := BIN2BCD (Int.tmod time.tm_year 100)
  let century_bcd := BIN2BCD (Int.tdiv time.tm_year 100 - 20)
  let month_bcd := BIN2BCD time.tm_mon
  let century_month_bcd := Int.lor (century_bcd <<< (6 : Int)) month_bcd
  let seconds_bcd := Int.lor seconds_bcd ((Int.land status.stop 1) <<< (7 : Int))
  let minutes_bcd := Int.lor minutes_bcd ((Int.land status.interrupt 1) <<< (7 : Int))
  let b := i2c_smbus_write_byte_data b 0 seconds_bcd
  let b := i2c_smbus_write_byte_data b 1 minutes_bcd
  let b := i2c_smbus_write_byte_data b 2 hours_bcd
  let b := i2c_smbus_write_byte_data b 4 day_bcd
  let b := i2c_smbus_write_byte_data b 5 century_month_bcd
  i2c_smbus_write_byte_data b 6 year_bcd

/-! ## Text format (`rtc.c`, lines 409-508) -/

/-- `is_number_range(input, from_inclusive, to_exclusive)`: every byte of the
index range lies between `'0'` (48) and `'9'` (57). -/
def is_number_range (input : List Nat) (from_inclusive to_exclusive : Nat) : Bool :=
  (List.range' from_inclusive (to_exclusive - from_inclusive)).all fun i =>
    !(input.getD i 0 < 48 || input.getD i 0 > 57)

/-- `is_valid_time_string(input, input_length)`, with the index ranges exactly
as written in the source; `'-'` is 45, `' '` is 32, `':'` is 58. -/
def is_valid_time_string (input : List Nat) (input_length : Nat) : Bool :=
  if input_length ≠ 19 ∧ input_length ≠ 20 then false
  else if input.getD 4 0 ≠ 45 ∨ input.getD 7 0 ≠ 45 ∨ input.getD 10 0 ≠ 32
      ∨ input.getD 13 0 ≠ 58 ∨ input.getD 16 0 ≠ 58 then false
  else if !is_number_range input 0 3
      || !is_number_range input 5 7
      || !is_number_range input 11 13 then false
  else if !is_number_range input 11 13
      || !is_number_range input 14 16
      || !is_number_range input 17 19 then false
  else true

/-- Modelled from the spec: `isdigit` of the kernel's `linux/ctype.h` (not part
of this repository): an ASCII decimal digit, `'0'` (48) to `'9'` (57). -/
def isdigit (c : Nat) : Bool :=
  48 ≤ c && c ≤ 57

/-- Modelled from the spec: `isxdigit` of the kernel's `linux/ctype.h` (not
part of this repository): a decimal digit or a letter `a`..`f` / `A`..`F`. -/
def isxdigit (c : Nat) : Bool :=
  isdigit c || (97 ≤ c && c ≤ 102) || (65 ≤ c && c ≤ 70)

/-- Modelled from the spec: `toupper` of the kernel's `linux/ctype.h` (not part
of this repository), on ASCII letters. -/
def toupper (c : Nat) : Nat :=
  if 97 ≤ c ∧ c ≤ 122 then c - 32 else c

/-- Modelled from the spec: the digit loop of the kernel's `simple_strtoul`
(`lib/vsprintf.c`, not part of this repository),
`while (isxdigit(*cp) && (value = ...) < base)`: it consumes characters while
they are digits of the base; the end of the list is the terminating NUL. -/
def simple_strtoul_loop (base : Nat) : List Nat → Nat → Nat
  | [], result => result
  | c :: cp, result =>
    if isxdigit c then
      let value := if isdigit c then c - 48 else toupper c - 65 + 10
      if value < base then simple_strtoul_loop base cp (result * base + value)
      else result
    else result

/-- Modelled from the spec: `simple_strtoul` of the kernel library
(`lib/vsprintf.c`, not part of this repository), which reads an independent
decimal integer.  Every call in the driver passes base 10, so the prefix
detection of bases 0 and 16 is left out; at most four characters are read, so
the `unsigned long` cannot overflow. -/
def simple_strtoul (cp : List Nat) (base : Nat) : Nat :=
  simple_strtoul_loop base cp 0

/-- Modelled from the spec: `simple_strtol` of the kernel library
(`lib/vsprintf.c`, not part of this repository): a leading `'-'` (45) negates
the value read by `simple_strtoul`. -/
def simple_strtol (cp : List Nat) (base : Nat) : Int :=
  match cp with
  | 45 :: rest => -((simple_strtoul rest base : Nat) : Int)
  | _ => ((simple_strtoul cp base : Nat) : Int)

/-- `parse_time(input, input_length)`: six fixed slices of the input, each
converted on its own; the fields the initialiser does not name are zero. -/
def parse_time (input : List Nat) (_input_length : Nat) : rtc_time :=
  let year_str := [input.getD 0 0, input.getD 1 0, input.getD 2 0, input.getD 3 0]
  let year := simple_strtol year_str 10
  let month_str := [input.getD 5 0, input.getD 6 0]
  let month := simple_strtol month_str 10
  let day_str := [input.getD 8 0, input.getD 9 0]
  let day := simple_strtol day_str 10
  let hour_str := [input.getD 11 0, input.getD 12 0]
  let hour := simple_strtol hour_str 10
  let minute_str := [input.getD 14 0, input.getD 15 0]
  let minute := simple_strtol minute_str 10
  let second_str := [input.getD 17 0, input.getD 18 0]
  let second := simple_strtol second_str 10
  { tm_mday := day, tm_mon := month, tm_year := year, tm_hour := hour,
    tm_min := minute, tm_sec := second, tm_wday := 0, tm_yday := 0, tm_isdst := 0 }

/-! ## Display line (`rtc.c`, lines 102-128) -/

/-- The decimal digits of a natural number as ASCII bytes, most significant
first. -/
def decimal (n : Nat) : List Nat :=
  (Nat.toDigits 10 n).map Char.toNat

/-- Modelled from the spec: the conversion `%0<width>d` of the kernel's
`sprintf` (not part of this repository) for an `int`: decimal digits,
zero-padded to the width (a minus sign counts toward the width), never cut. -/
def fmt_0d (width : Nat) (v : Int) : List Nat :=
  let ds := decimal v.natAbs
  if v < 0 then 45 :: (List.replicate (width - 1 - ds.length) 48 ++ ds)
  else List.replicate (width - ds.length) 48 ++ ds

/-- The characters that `sprintf(result, "%02d. %s %02d:%02d:%02d %04d\n", ...)`
produces in `rtc_read`, without the terminating NUL. -/
def display_line (current_time : rtc_time) (current_month : List Nat) : List Nat :=
  fmt_0d 2 current_time.tm_mday ++ bytes ". " ++ current_month ++ bytes " "
    ++ fmt_0d 2 current_time.tm_hour ++ bytes ":" ++ fmt_0d 2 current_time.tm_min
    ++ bytes ":" ++ fmt_0d 2 current_time.tm_sec ++ bytes " "
    ++ fmt_0d 4 current_time.tm_year ++ bytes "\n"

/-- The size of the buffer `result` in `rtc_read`:
`17 + 1 + strlen(current_month) + 1`. -/
def string_date_length (current_month : List Nat) : Nat :=
  17 + 1 + current_month.length + 1

/-- The content of a zeroed buffer of `size` bytes after `sprintf` has written
`text` and its terminating NUL from offset 0; what `sprintf` writes beyond the
end of the buffer is not part of the buffer. -/
def sprintf_into (size : Nat) (text : List Nat) : List Nat :=
  ((text ++ [0]) ++ List.replicate (size - (text.length + 1)) 0).take size

/-! ## Device operations (`rtc.c`, lines 74-170 and 289-334) -/

/-- The error number `EINVAL`. -/
def EINVAL : Int := 22

/-- `rtc_open`: `down(&file_lock)`, clear `is_reading`, return 0.  The result
is `none` when `down` does not return. -/
def rtc_open (st : Driver) : Option (Int × Driver) :=
  match down st.file_lock with
  | none => none
  | some count => some (0, { st with file_lock := count, is_reading := false })

/-- `rtc_close`: `up(&file_lock)`, clear `is_reading`, return 0. -/
def rtc_close (st : Driver) : Int × Driver :=
  (0, { st with file_lock := up st.file_lock, is_reading := false })

/-- `rtc_read`: the new driver state, and the return value with the bytes
copied to the user buffer.  The second component is `none` when the index
`tm_mon - 1` lies outside the table `months`, where C leaves the behaviour
undefined. -/
def rtc_read (st : Driver) : Driver × Option (Int × List Nat) :=
  if st.is_reading then (st, some (0, []))
  else
    let (current_time, b) := read_time st.bus
    let st := { st with is_reading := true, bus := b }
    if 1 ≤ current_time.tm_mon then
      match months.get? (current_time.tm_mon - 1).toNat with
      | none => (st, none)
      | some current_month =>
        let size := string_date_length current_month
        let result := sprintf_into size (display_line current_time current_month)
        (st, some ((size : Int), result))
    else (st, none)

/-- `rtc_write`: the return value and the new driver state; `user` holds the
`count` bytes offered by the caller. -/
def rtc_write (st : Driver) (user : List Nat) : Int × Driver :=
  let count := user.length
  let max_string_length := (bytes "YYYY-MM-DD hh:mm:ss").length
  if count < max_string_length then ((count : Int), st)
  else
    let new_date_string := user.take max_string_length
    if !is_valid_time_string new_date_string max_string_length then (-EINVAL, st)
    else
      let new_time := parse_time new_date_string max_string_length
      if !is_valid_time new_time false then (-EINVAL, st)
      else
        let (current_status, b) := get_status st.bus
        let b := write_time b new_time current_status
        ((max_string_length : Int), { st with bus := b })

/-- The command numbers that `rtc_ioctl` distinguishes. -/
inductive IoctlCmd where
  | RTC_RD_TIME
  | RTC_SET_TIME
  | other (cmd : Nat)
  deriving DecidableEq, Repr

/-- The record that the `RTC_RD_TIME` branch hands to the caller:
`--tm_mon; tm_year -= 1900`. -/
def rd_time_payload (current_time : rtc_time) : rtc_time :=
  { current_time with tm_mon := current_time.tm_mon - 1,
                      tm_year := current_time.tm_year - 1900 }

/-- The time that the `RTC_SET_TIME` branch validates and writes:
`++tm_mon; tm_year += 1900` on the caller's record, in 32-bit arithmetic. -/
def set_time_payload (new_time : rtc_time) : rtc_time :=
  { new_time with tm_mon := wrap32 (new_time.tm_mon + 1),
                  tm_year := wrap32 (new_time.tm_year + 1900) }

/-- `rtc_ioctl`: the return value, the new driver state and the content of the
caller's record at `arg` after the call; `none` when `down` does not return. -/
def rtc_ioctl (st : Driver) (cmd : IoctlCmd) (arg : rtc_time) :
    Option (Int × Driver × rtc_time) :=
  match cmd with
  | IoctlCmd.RTC_RD_TIME =>
    match down st.file_lock with
    | none => none
    | some count =>
      let (current_time, b) := read_time st.bus
      let current_time := rd_time_payload current_time
      some (0, { st with bus := b, file_lock := up count }, current_time)
  | IoctlCmd.RTC_SET_TIME =>
    match down st.file_lock with
    | none => none
    | some count =>
      let new_time := set_time_payload arg
      if !is_valid_time new_time true then
        some (-1, { st with file_lock := up count }, arg)
      else
        let (current_status, b) := get_status st.bus
        let b := write_time b new_time current_status
        some (0, { st with bus := b, file_lock := up count }, arg)
  | IoctlCmd.other _ => some (0, st, arg)

/-! ## Auxiliary definitions used in the statements -/

/-- The six range checks of `is_valid_time` (lines 513-520). -/
def in_ranges (t : rtc_time) : Prop :=
  (2000 ≤ t.tm_year ∧ t.tm_year ≤ 2399) ∧ (1 ≤ t.tm_mon ∧ t.tm_mon ≤ 12)
    ∧ (1 ≤ t.tm_mday ∧ t.tm_mday ≤ 31) ∧ (0 ≤ t.tm_hour ∧ t.tm_hour ≤ 23)
    ∧ (0 ≤ t.tm_min ∧ t.tm_min ≤ 59) ∧ (0 ≤ t.tm_sec ∧ t.tm_sec ≤ 59)

/-- The byte that `write_time` stores in register 0 (seconds with the stop
bit) and in register 1 (minutes with the interrupt bit). -/
def packed_low (v bit : Int) : Nat :=
  (Int.lor (BIN2BCD v) ((Int.land bit 1) <<< (7 : Int)) % 256).toNat

/-- A calendar time with the weekday, year-day and DST fields set to zero. -/
def clear_unused (t : rtc_time) : rtc_time :=
  { t with tm_wday := 0, tm_yday := 0, tm_isdst := 0 }

/-- The positions whose bytes `is_valid_time_string` requires to be digits
(lines 440-451). -/
def checked_digit_positions : List Nat :=
  [0, 1, 2, 5, 6, 11, 12, 14, 15, 17, 18]

/-- The input format in the words of the specification: the 19 bytes
`dddd-dd-dd dd:dd:dd`, optionally followed by one newline as a 20th byte. -/
def exact_format (user : List Nat) : Bool :=
  (user.length == 19 || (user.length == 20 && user.getD 19 0 == 10))
    && user.getD 4 0 == 45 && user.getD 7 0 == 45 && user.getD 10 0 == 32
    && user.getD 13 0 == 58 && user.getD 16 0 == 58
    && [0, 1, 2, 3, 5, 6, 8, 9, 11, 12, 14, 15, 17, 18].all fun i => isdigit (user.getD i 0)

/-- A chip whose registers all hold zero, with an empty call log. -/
def blank_bus : Bus :=
  { regs := fun _ => 0, calls := [] }

/-- A chip whose stop bit (bit 7 of register 0) and interrupt bit (bit 7 of
register 1) are set and whose calibration register holds 0x15. -/
def halted_bus : Bus :=
  { regs := fun a => if a = 0 ∨ a = 1 then 0x80 else if a = 7 then 0x15 else 0, calls := [] }

/-- The driver state after module load: `DECLARE_MUTEX(file_lock)` gives the
semaphore the count 1 and `is_reading` starts as `false`. -/
def initial_driver (b : Bus) : Driver :=
  { bus := b, is_reading := false, file_lock := 1 }

/-- The driver state while one session holds the device: the semaphore count
is 0. -/
def open_driver (b : Bus) : Driver :=
  { bus := b, is_reading := false, file_lock := 0 }

/-- A calendar time from its six fields, the unused fields zero. -/
def calendar (year mon mday hour min sec : Int) : rtc_time :=
  { tm_sec := sec, tm_min := min, tm_hour := hour, tm_mday := mday, tm_mon := mon,
    tm_year := year, tm_wday := 0, tm_yday := 0, tm_isdst := 0 }

/-- An operation issued on the device between an `open` and the next `close`. -/
inductive SessionOp where
  | read
  | write (user : List Nat)
  | ioctl (cmd : IoctlCmd) (arg : rtc_time)

/-- Whether the result of a `rtc_read` hands bytes to the caller: a non-zero
byte count (an undefined result counts as well). -/
def returns_bytes (result : Option (Int × List Nat)) : Bool :=
  match result with
  | none => true
  | some (count, _) => count != 0

/-- The number of reads returning a non-zero byte count when the operations
are run in order from the given state; the run ends where an `ioctl` does not
return. -/
def nonzero_reads : Driver → List SessionOp → Nat
  | _, [] => 0
  | st, SessionOp.read :: ops =>
    (if returns_bytes (rtc_read st).2 then 1 else 0) + nonzero_reads (rtc_read st).1 ops
  | st, SessionOp.write user :: ops => nonzero_reads (rtc_write st user).2 ops
  | st, SessionOp.ioctl cmd arg :: ops =>
    match rtc_ioctl st cmd arg with
    | none => 0
    | some (_, st, _) => nonzero_reads st ops

/-- A 19-character text of the form `dddd-dd-dd dd:dd:dd`, each `d` an ASCII
decimal digit, in the words of the specification. -/
def is_time_text (s : List Nat) : Bool :=
  s.length == 19 && s.getD 4 0 == 45 && s.getD 7 0 == 45 && s.getD 10 0 == 32
    && s.getD 13 0 == 58 && s.getD 16 0 == 58
    && [0, 1, 2, 3, 5, 6, 8, 9, 11, 12, 14, 15, 17, 18].all fun i => isdigit (s.getD i 0)

/-- The base-10 value of the characters of `s` at the positions from
`from_inclusive` up to `to_exclusive`. -/
def decimal_value (s : List Nat) (from_inclusive to_exclusive : Nat) : Int :=
  (((List.range' from_inclusive (to_exclusive - from_inclusive)).foldl
    (fun acc i => 10 * acc + (s.getD i 0 - 48)) 0 : Nat) : Int)

/-- The six values that `write_time` passes to `i2c_smbus_write_byte_data`,
each with its register, in call order (lines 569-589). -/
def write_time_values (time : rtc_time) (status : rtc_status) : List (Nat × Int) :=
  [(0, Int.lor (BIN2BCD time.tm_sec) ((Int.land status.stop 1) <<< (7 : Int))),
   (1, Int.lor (BIN2BCD time.tm_min) ((Int.land status.interrupt 1) <<< (7 : Int))),
   (2, BIN2BCD time.tm_hour),
   (4, BIN2BCD time.tm_mday),
   (5, Int.lor (BIN2BCD (Int.tdiv time.tm_year 100 - 20) <<< (6 : Int)) (BIN2BCD time.tm_mon)),
   (6, BIN2BCD (Int.tmod time.tm_year 100))]

/-! ## Lemmas on the register mapping -/

theorem read_time_fst (b : Bus) :
    (read_time b).1 =
      { tm_sec := BCD2BIN (Int.land (b.regs 0) 0x7F)
        tm_min := BCD2BIN (Int.land (b.regs 1) 0x7F)
        tm_hour := BCD2BIN (Int.land (b.regs 2) 0x3F)
        tm_mday := BCD2BIN (Int.land (b.regs 4) 0x3F)
        tm_mon := BCD2BIN (Int.land (b.regs 5) 0x1F)
        tm_year := BCD2BIN (b.regs 6) + 2000
          + 100 * BCD2BIN (Int.land (b.regs 5) 0xC0 >>> (6 : Int))
        tm_wday := 0, tm_yday := 0, tm_isdst := 0 } := rfl

theorem get_status_fst (b : Bus) :
    (get_status b).1 =
      { stop := Int.land (b.regs 0) 0x80, interrupt := Int.land (b.regs 1) 0x80,
        calibration := Int.land (b.regs 7) 0x1F } := rfl

theorem get_status_regs (b : Bus) : (get_status b).2.regs = b.regs := rfl

theorem write_time_regs (b : Bus) (t : rtc_time) (s : rtc_status) :
    (write_time b t s).regs = fun a =>
      if a = 6 then (BIN2BCD (Int.tmod t.tm_year 100) % 256).toNat
      else if a = 5 then
        (Int.lor (BIN2BCD (Int.tdiv t.tm_year 100 - 20) <<< (6 : Int)) (BIN2BCD t.tm_mon)
          % 256).toNat
      else if a = 4 then (BIN2BCD t.tm_mday % 256).toNat
      else if a = 2 then (BIN2BCD t.tm_hour % 256).toNat
      else if a = 1 then packed_low t.tm_min s.interrupt
      else if a = 0 then packed_low t.tm_sec s.stop
      else b.regs a := rfl

theorem low_field_nat : ∀ n : Nat, n < 60 → ∀ e : Nat, e < 2 →
    BCD2BIN (Int.land ((Int.lor (BIN2BCD n) ((e : Int) <<< (7 : Int)) % 256).toNat) 0x7F)
      = n := by
  decide

theorem low_field (v bit : Int) (h0 : 0 ≤ v) (h1 : v ≤ 59)
    (hb : Int.land bit 1 = 0 ∨ Int.land bit 1 = 1) :
    BCD2BIN (Int.land (packed_low v bit) 0x7F) = v := by
  obtain ⟨n, rfl⟩ := Int.eq_ofNat_of_zero_le h0
  have hn : n < 60 := by omega
  unfold packed_low
  rcases hb with h | h <;> rw [h]
  · exact low_field_nat n hn 0 (by decide)
  · exact low_field_nat n hn 1 (by decide)

theorem day_hour_field_nat : ∀ n : Nat, n < 32 →
    BCD2BIN (Int.land ((BIN2BCD n % 256).toNat) 0x3F) = n := by
  decide

theorem day_hour_field (v : Int) (h0 : 0 ≤ v) (h1 : v ≤ 31) :
    BCD2BIN (Int.land ((BIN2BCD v % 256).toNat) 0x3F) = v := by
  obtain ⟨n, rfl⟩ := Int.eq_ofNat_of_zero_le h0
  exact day_hour_field_nat n (by omega)

set_option maxRecDepth 1000000 in
theorem year_split_nat : ∀ n : Nat, n < 400 →
    Int.tdiv (2000 + (n : Int)) 100 - 20 = ((n / 100 : Nat) : Int)
      ∧ BCD2BIN ((BIN2BCD (Int.tmod (2000 + (n : Int)) 100) % 256).toNat) + 2000
          + 100 * ((n / 100 : Nat) : Int) = 2000 + (n : Int) := by
  decide

theorem month_century_field_nat : ∀ c : Nat, c < 4 → ∀ m : Nat, m < 13 →
    BCD2BIN (Int.land ((Int.lor (BIN2BCD c <<< (6 : Int)) (BIN2BCD m) % 256).toNat) 0x1F) = m
      ∧ BCD2BIN (Int.land ((Int.lor (BIN2BCD c <<< (6 : Int)) (BIN2BCD m) % 256).toNat) 0xC0
          >>> (6 : Int)) = c := by
  decide

/-- On the store-and-echo bus, `read_time` after `write_time` gives back the six
calendar fields of a time that passes the range checks, whichever values the
two status bits take. -/
theorem read_write_time (b : Bus) (t : rtc_time) (s : rtc_status) (ht : in_ranges t)
    (hs : Int.land s.stop 1 = 0 ∨ Int.land s.stop 1 = 1)
    (hi : Int.land s.interrupt 1 = 0 ∨ Int.land s.interrupt 1 = 1) :
    (read_time (write_time b t s)).1 = clear_unused t := by
  obtain ⟨⟨hy0, hy1⟩, ⟨hm0, hm1⟩, ⟨hd0, hd1⟩, ⟨hh0, hh1⟩, ⟨hn0, hn1⟩, ⟨hs0, hs1⟩⟩ := ht
  obtain ⟨y, hy⟩ : ∃ y : Nat, t.tm_year = 2000 + (y : Int) :=
    ⟨(t.tm_year - 2000).toNat, by omega⟩
  obtain ⟨m, hm⟩ := Int.eq_ofNat_of_zero_le (show 0 ≤ t.tm_mon by omega)
  have hylt : y < 400 := by omega
  have hmlt : m < 13 := by omega
  have hY := year_split_nat y hylt
  have hM := month_century_field_nat (y / 100) (by omega) m hmlt
  rw [read_time_fst, write_time_regs]
  simp only [clear_unused]
  have e0 := low_field t.tm_sec s.stop hs0 hs1 hs
  have e1 := low_field t.tm_min s.interrupt hn0 hn1 hi
  have e2 := day_hour_field t.tm_hour hh0 (by omega)
  have e4 := day_hour_field t.tm_mday (by omega) hd1
  simp only [if_true, Nat.reduceEqDiff, if_false]
  simp only [e0, e1, e2, e4, hy, hm, hY.1, hM.1, hM.2, hY.2]


theorem month_step (mon : Int) (h1 : 1 ≤ mon) (h2 : mon ≤ 12) (leap : Bool) :
    mon ≤ (if leap then month_days.getD (mon - 1).toNat 0
      else month_days_leap_year.getD (mon - 1).toNat 0) := by
  obtain ⟨m, rfl⟩ : ∃ m : Nat, mon = (m : Int) + 1 := ⟨(mon - 1).toNat, by omega⟩
  have hm : m < 12 := by omega
  have key : ∀ k : Nat, k < 12 → ∀ l : Bool,
      ((k : Int) + 1) ≤ (if l then month_days.getD ((k : Int) + 1 - 1).toNat 0
        else month_days_leap_year.getD ((k : Int) + 1 - 1).toNat 0) := by decide
  exact key m hm leap

theorem is_valid_time_false_iff (t : rtc_time) :
    is_valid_time t false = true ↔ in_ranges t := by
  unfold is_valid_time in_ranges
  constructor
  · intro h
    split at h
    · split at h
      · rename_i hy hr
        obtain ⟨a1, a2, a3, a4, a5, a6, a7, a8, a9, a10⟩ := hr
        exact ⟨hy, ⟨a1, a2⟩, ⟨a3, a4⟩, ⟨a5, a6⟩, ⟨a7, a8⟩, ⟨a9, a10⟩⟩
      · simp at h
    · simp at h
  · rintro ⟨hy, hm, hd, hh, hmi, hs⟩
    rw [if_pos hy, if_pos ⟨hm.1, hm.2, hd.1, hd.2, hh.1, hh.2, hmi.1, hmi.2, hs.1, hs.2⟩]
    simp only []
    rw [if_pos (month_step t.tm_mon hm.1 hm.2 _)]
    simp

theorem is_valid_time_string_iff (input : List Nat) (n : Nat) :
    is_valid_time_string input n = true ↔
      (n = 19 ∨ n = 20) ∧ input.getD 4 0 = 45 ∧ input.getD 7 0 = 45
        ∧ input.getD 10 0 = 32 ∧ input.getD 13 0 = 58 ∧ input.getD 16 0 = 58
        ∧ ∀ i ∈ checked_digit_positions, isdigit (input.getD i 0) = true := by
  simp only [is_valid_time_string, is_number_range, checked_digit_positions, isdigit]
  simp [List.range']
  omega

theorem getD_take (l : List Nat) (n i : Nat) (h : i < n) :
    (l.take n).getD i 0 = l.getD i 0 := by
  simp [List.getD_eq_getElem?_getD, List.getElem?_take, h]

theorem simple_strtol_of_ne_minus (c : Nat) (cp : List Nat) (base : Nat) (h : c ≠ 45) :
    simple_strtol (c :: cp) base = ((simple_strtoul (c :: cp) base : Nat) : Int) := by
  unfold simple_strtol
  split
  · rename_i heq
    simp at heq
    exact absurd heq.1 h
  · rfl

theorem strtol_three_digits (c0 c1 c2 c3 : Nat) (h0 : isdigit c0 = true)
    (h1 : isdigit c1 = true) (h2 : isdigit c2 = true) (h3 : isdigit c3 = false) :
    simple_strtol [c0, c1, c2, c3] 10 < 1000 := by
  have hne : c0 ≠ 45 := by
    simp [isdigit] at h0
    omega
  rw [simple_strtol_of_ne_minus c0 _ 10 hne]
  simp only [simple_strtoul, simple_strtoul_loop, isxdigit, h0, h1, h2, h3]
  simp [isdigit] at h0 h1 h2 h3
  simp
  split_ifs <;> omega


theorem is_valid_time_year_low (t : rtc_time) (strict : Bool) (h : t.tm_year < 2000) :
    is_valid_time t strict = false := by
  unfold is_valid_time
  rw [if_neg (by omega)]

/-! ## Lemmas on the text formats -/

theorem land_mask_bit_zero (r : Nat) : Int.land (Int.land (r : Int) 0x80) 1 = 0 := by
  show ((((r &&& 0x80) &&& 1 : Nat)) : Int) = 0
  rw [Nat.and_assoc]
  simp

theorem get_status_low_bits (b : Bus) :
    Int.land (get_status b).1.stop 1 = 0 ∧ Int.land (get_status b).1.interrupt 1 = 0 := by
  rw [get_status_fst]
  exact ⟨land_mask_bit_zero _, land_mask_bit_zero _⟩

theorem rtc_write_accepts (st : Driver) (user : List Nat) (hlen : 19 ≤ user.length)
    (hfmt : is_valid_time_string (user.take 19) 19 = true)
    (hval : is_valid_time (parse_time (user.take 19) 19) false = true) :
    rtc_write st user =
      (19, { st with
        bus := write_time (get_status st.bus).2 (parse_time (user.take 19) 19) (get_status st.bus).1 }) := by
  have hmax : (bytes "YYYY-MM-DD hh:mm:ss").length = 19 := by decide
  unfold rtc_write
  simp only [hmax]
  rw [if_neg (by omega)]
  simp [hfmt, hval]

theorem rtc_read_again (st : Driver) (h : st.is_reading = true) :
    rtc_read st = (st, some (0, [])) := by
  unfold rtc_read
  rw [if_pos h]


theorem wrap32_id (x : Int) (h0 : -2147483648 ≤ x) (h1 : x < 2147483648) : wrap32 x = x := by
  unfold wrap32
  omega

theorem up_down (st : Driver) (h : 0 < st.file_lock) :
    down st.file_lock = some (st.file_lock - 1) ∧ up (st.file_lock - 1) = st.file_lock := by
  unfold down up
  rw [if_neg (by omega)]
  exact ⟨rfl, by omega⟩

theorem is_valid_time_strict_eq (t : rtc_time) :
    is_valid_time t true =
      (is_valid_time t false &&
        decide (t.tm_year < 2038 ∨ (t.tm_year = 2038 ∧ t.tm_mon ≤ 1 ∧ t.tm_mday ≤ 19
          ∧ t.tm_hour ≤ 3 ∧ t.tm_min ≤ 14 ∧ t.tm_sec ≤ 8))) := by
  unfold is_valid_time
  simp only []
  split_ifs <;> simp_all <;> omega


theorem clear_unused_eq (t : rtc_time) (hz : t.tm_wday = 0 ∧ t.tm_yday = 0 ∧ t.tm_isdst = 0) :
    clear_unused t = t := by
  cases t
  simp only [clear_unused] at hz ⊢
  obtain ⟨h1, h2, h3⟩ := hz
  subst h1 h2 h3
  rfl

theorem rtc_ioctl_rd_time (st : Driver) (arg : rtc_time) (h : 0 < st.file_lock) :
    rtc_ioctl st IoctlCmd.RTC_RD_TIME arg =
      some (0, { st with bus := (read_time st.bus).2 }, rd_time_payload (read_time st.bus).1) := by
  have hl := up_down st h
  unfold rtc_ioctl
  simp only [hl.1, hl.2]

theorem rtc_ioctl_set_time_rejected (st : Driver) (arg : rtc_time) (h : 0 < st.file_lock)
    (hv : is_valid_time (set_time_payload arg) true = false) :
    rtc_ioctl st IoctlCmd.RTC_SET_TIME arg = some (-1, st, arg) := by
  have hl := up_down st h
  unfold rtc_ioctl
  simp only [hl.1, hl.2, hv]
  rfl

theorem rtc_ioctl_set_time_accepted (st : Driver) (arg : rtc_time) (h : 0 < st.file_lock)
    (hv : is_valid_time (set_time_payload arg) true = true) :
    rtc_ioctl st IoctlCmd.RTC_SET_TIME arg =
      some (0, { st with
        bus := write_time (get_status st.bus).2 (set_time_payload arg) (get_status st.bus).1 },
        arg) := by
  have hl := up_down st h
  unfold rtc_ioctl
  simp only [hl.1, hl.2, hv]
  rfl

theorem rtc_ioctl_blocked (st : Driver) (arg : rtc_time) (h : st.file_lock = 0) :
    rtc_ioctl st IoctlCmd.RTC_RD_TIME arg = none
      ∧ rtc_ioctl st IoctlCmd.RTC_SET_TIME arg = none := by
  unfold rtc_ioctl down
  simp [h]

theorem rtc_write_short (st : Driver) (user : List Nat) (h : user.length < 19) :
    rtc_write st user = ((user.length : Int), st) := by
  have hmax : (bytes "YYYY-MM-DD hh:mm:ss").length = 19 := by decide
  unfold rtc_write
  simp only [hmax]
  rw [if_pos h]

theorem rtc_write_bad_format (st : Driver) (user : List Nat) (h : 19 ≤ user.length)
    (hf : is_valid_time_string (user.take 19) 19 = false) :
    rtc_write st user = (-EINVAL, st) := by
  have hmax : (bytes "YYYY-MM-DD hh:mm:ss").length = 19 := by decide
  unfold rtc_write
  simp only [hmax]
  rw [if_neg (by omega)]
  simp [hf]

theorem rtc_write_bad_time (st : Driver) (user : List Nat) (h : 19 ≤ user.length)
    (hf : is_valid_time_string (user.take 19) 19 = true)
    (hv : is_valid_time (parse_time (user.take 19) 19) false = false) :
    rtc_write st user = (-EINVAL, st) := by
  have hmax : (bytes "YYYY-MM-DD hh:mm:ss").length = 19 := by decide
  unfold rtc_write
  simp only [hmax]
  rw [if_neg (by omega)]
  simp [hf, hv]

/-! ## Lemmas on the session, the text codec and the written values -/

theorem rtc_read_flag (st : Driver) : (rtc_read st).1.is_reading = true := by
  unfold rtc_read
  split
  · assumption
  · rcases read_time st.bus with ⟨ct, b⟩
    simp only []
    split
    · split <;> rfl
    · rfl

theorem rtc_write_flag (st : Driver) (user : List Nat) :
    (rtc_write st user).2.is_reading = st.is_reading := by
  unfold rtc_write
  simp only []
  split_ifs <;> rfl

theorem rtc_ioctl_flag (st : Driver) (cmd : IoctlCmd) (arg : rtc_time)
    (r : Int × Driver × rtc_time) (h : rtc_ioctl st cmd arg = some r) :
    r.2.1.is_reading = st.is_reading := by
  unfold rtc_ioctl at h
  cases cmd with
  | RTC_RD_TIME =>
    simp only [] at h
    cases hd : down st.file_lock with
    | none => rw [hd] at h; simp at h
    | some c =>
      rw [hd] at h
      simp only [Option.some.injEq] at h
      rw [← h]
  | RTC_SET_TIME =>
    simp only [] at h
    cases hd : down st.file_lock with
    | none => rw [hd] at h; simp at h
    | some c =>
      rw [hd] at h
      simp only [] at h
      split_ifs at h <;> simp only [Option.some.injEq] at h <;> rw [← h]
  | other n =>
    simp only [Option.some.injEq] at h
    rw [← h]

theorem nonzero_reads_after_read (ops : List SessionOp) :
    ∀ st : Driver, st.is_reading = true → nonzero_reads st ops = 0 := by
  induction ops with
  | nil => intro st _; rfl
  | cons op ops ih =>
    intro st h
    cases op with
    | read =>
      simp only [nonzero_reads]
      rw [rtc_read_again st h]
      simp only [returns_bytes]
      rw [ih st h]
      rfl
    | write user =>
      simp only [nonzero_reads]
      exact ih _ (by rw [rtc_write_flag]; exact h)
    | ioctl cmd arg =>
      simp only [nonzero_reads]
      cases hr : rtc_ioctl st cmd arg with
      | none => rfl
      | some r =>
        obtain ⟨ret, st1, out⟩ := r
        simp only []
        exact ih st1 (by rw [rtc_ioctl_flag st cmd arg _ hr]; exact h)

theorem nonzero_reads_le_one (ops : List SessionOp) :
    ∀ st : Driver, nonzero_reads st ops ≤ 1 := by
  induction ops with
  | nil => intro st; exact Nat.zero_le 1
  | cons op ops ih =>
    intro st
    cases op with
    | read =>
      simp only [nonzero_reads]
      rw [nonzero_reads_after_read ops _ (rtc_read_flag st)]
      split <;> decide
    | write user =>
      simp only [nonzero_reads]
      exact ih _
    | ioctl cmd arg =>
      simp only [nonzero_reads]
      cases hr : rtc_ioctl st cmd arg with
      | none => exact Nat.zero_le 1
      | some r =>
        obtain ⟨ret, st1, out⟩ := r
        exact ih st1

theorem is_time_text_iff (s : List Nat) :
    is_time_text s = true ↔
      s.length = 19 ∧ s.getD 4 0 = 45 ∧ s.getD 7 0 = 45 ∧ s.getD 10 0 = 32
        ∧ s.getD 13 0 = 58 ∧ s.getD 16 0 = 58
        ∧ ∀ i ∈ [0, 1, 2, 3, 5, 6, 8, 9, 11, 12, 14, 15, 17, 18],
            isdigit (s.getD i 0) = true := by
  simp only [is_time_text, Bool.and_eq_true, beq_iff_eq, List.all_eq_true, and_assoc]

theorem checked_positions_sub (i : Nat) (h : i ∈ checked_digit_positions) :
    i ∈ [0, 1, 2, 3, 5, 6, 8, 9, 11, 12, 14, 15, 17, 18] ∧ i < 19 := by
  simp only [checked_digit_positions, List.mem_cons, List.mem_singleton, List.not_mem_nil,
    or_false] at h ⊢
  omega

theorem getD_append_left (s t : List Nat) (i : Nat) (h : i < s.length) :
    (s ++ t).getD i 0 = s.getD i 0 := by
  exact List.getD_append s t 0 i h

theorem is_valid_time_string_bad_length (input : List Nat) (n : Nat) (h19 : n ≠ 19)
    (h20 : n ≠ 20) : is_valid_time_string input n = false := by
  unfold is_valid_time_string
  rw [if_pos ⟨h19, h20⟩]

theorem is_valid_time_string_bad_separator (input : List Nat) (n : Nat)
    (h : input.getD 4 0 ≠ 45 ∨ input.getD 7 0 ≠ 45 ∨ input.getD 10 0 ≠ 32
      ∨ input.getD 13 0 ≠ 58 ∨ input.getD 16 0 ≠ 58) :
    is_valid_time_string input n = false := by
  unfold is_valid_time_string
  by_cases hn : n ≠ 19 ∧ n ≠ 20
  · rw [if_pos hn]
  · rw [if_neg hn, if_pos h]

theorem strtol_two_digits (c0 c1 : Nat) (h0 : isdigit c0 = true) (h1 : isdigit c1 = true) :
    simple_strtol [c0, c1] 10 = (((10 * (10 * 0 + (c0 - 48)) + (c1 - 48) : Nat)) : Int) := by
  have hne : c0 ≠ 45 := by
    simp [isdigit] at h0
    omega
  rw [simple_strtol_of_ne_minus c0 _ 10 hne]
  simp only [simple_strtoul, simple_strtoul_loop, isxdigit, h0, h1]
  simp [isdigit] at h0 h1
  simp
  split_ifs <;> omega

theorem strtol_four_digits (c0 c1 c2 c3 : Nat) (h0 : isdigit c0 = true)
    (h1 : isdigit c1 = true) (h2 : isdigit c2 = true) (h3 : isdigit c3 = true) :
    simple_strtol [c0, c1, c2, c3] 10
      = (((10 * (10 * (10 * (10 * 0 + (c0 - 48)) + (c1 - 48)) + (c2 - 48)) + (c3 - 48) : Nat))
          : Int) := by
  have hne : c0 ≠ 45 := by
    simp [isdigit] at h0
    omega
  rw [simple_strtol_of_ne_minus c0 _ 10 hne]
  simp only [simple_strtoul, simple_strtoul_loop, isxdigit, h0, h1, h2, h3]
  simp [isdigit] at h0 h1 h2 h3
  simp
  split_ifs <;> omega

theorem bcd_nat : ∀ n : Nat, n < 100 →
    0 ≤ BIN2BCD (n : Int) ∧ BIN2BCD (n : Int) < 256
      ∧ Int.land (BIN2BCD (n : Int)) 0x0F ≤ 9 ∧ BIN2BCD (n : Int) >>> (4 : Int) ≤ 9
      ∧ BCD2BIN (BIN2BCD (n : Int)) = (n : Int) := by
  decide

theorem write_time_calls (b : Bus) (t : rtc_time) (s : rtc_status) :
    (write_time b t s).calls =
      b.calls ++ (write_time_values t s).map
        (fun p => BusCall.write p.1 (p.2 % 256).toNat) := by
  simp [write_time, i2c_smbus_write_byte_data, write_time_values]

theorem is_valid_time_ranges (t : rtc_time) (strict : Bool)
    (h : is_valid_time t strict = true) : in_ranges t := by
  cases strict
  · exact (is_valid_time_false_iff t).1 h
  · rw [is_valid_time_strict_eq] at h
    simp only [Bool.and_eq_true] at h
    exact (is_valid_time_false_iff t).1 h.1

theorem status_bit_nat : ∀ n : Nat, n < 60 → ∀ e : Nat, e < 2 →
    Int.land
      ((((Int.lor (BIN2BCD n) ((Int.land (e : Int) 1) <<< (7 : Int)) % 256).toNat : Nat) : Int)
        >>> (7 : Int)) 1 = (e : Int)
    ∧ 0 ≤ Int.lor (BIN2BCD n) ((Int.land (e : Int) 1) <<< (7 : Int))
    ∧ Int.lor (BIN2BCD n) ((Int.land (e : Int) 1) <<< (7 : Int)) < 256 := by
  decide

theorem status_bit (v bit : Int) (h0 : 0 ≤ v) (h1 : v ≤ 59) (hb : bit = 0 ∨ bit = 1) :
    Int.land (((packed_low v bit : Nat) : Int) >>> (7 : Int)) 1 = bit
    ∧ 0 ≤ Int.lor (BIN2BCD v) ((Int.land bit 1) <<< (7 : Int))
    ∧ Int.lor (BIN2BCD v) ((Int.land bit 1) <<< (7 : Int)) < 256 := by
  obtain ⟨n, rfl⟩ := Int.eq_ofNat_of_zero_le h0
  have hn : n < 60 := by omega
  unfold packed_low
  rcases hb with h | h <;> rw [h]
  · exact status_bit_nat n hn 0 (by decide)
  · exact status_bit_nat n hn 1 (by decide)

theorem century_field_nat : ∀ c : Nat, c < 4 → ∀ m : Nat, m < 13 →
    ((((Int.lor (BIN2BCD c <<< (6 : Int)) (BIN2BCD m) % 256).toNat : Nat) : Int)
        >>> (6 : Int)) = (c : Int)
      ∧ Int.land (((Int.lor (BIN2BCD c <<< (6 : Int)) (BIN2BCD m) % 256).toNat : Nat) : Int)
          0x1F = BIN2BCD m
      ∧ 0 ≤ Int.lor (BIN2BCD c <<< (6 : Int)) (BIN2BCD m)
      ∧ Int.lor (BIN2BCD c <<< (6 : Int)) (BIN2BCD m) < 256 := by
  decide

set_option maxRecDepth 1000000 in
theorem year_parts_nat : ∀ n : Nat, n < 400 →
    Int.tdiv (2000 + (n : Int)) 100 - 20 = ((n / 100 : Nat) : Int)
      ∧ Int.tmod (2000 + (n : Int)) 100 = ((n % 100 : Nat) : Int) := by
  decide

/-! ## The claims -/

/-- Claim C1, the code at the failing input: with `strict_hwclock = false`,
`is_valid_time` accepts 2023-02-29 00:00:00 although February 2023 has 28 days,
and likewise 2023-02-31 and 2024-04-31; the leap day 2024-02-29 is accepted as
well.  The month-length step compares `tm_mon`, not `tm_mday`, with the table
entry. -/
theorem is_valid_time_accepts_2023_02_29 :
    is_valid_time (calendar 2023 2 29 0 0 0) false = true
      ∧ is_valid_time (calendar 2023 2 31 0 0 0) false = true
      ∧ is_valid_time (calendar 2024 4 31 0 0 0) false = true
      ∧ is_valid_time (calendar 2024 2 29 0 0 0) false = true := by
  decide

/-- Claim C2, the code at the failing input: on a chip whose stop and interrupt
bits are set, the sequence `status = get_status(bus); write_time(bus, t, status)`
with t = 2025-01-01 00:00:00 leaves both bits cleared, so `get_status` after the
write differs from `get_status` before it; the calibration bits are kept.
`get_status` stores the bits as 0x80, and `write_time` re-applies
`(status.stop & 1) << 7`, which is 0 for 0x80. -/
theorem write_sequence_clears_status_bits :
    is_valid_time (calendar 2025 1 1 0 0 0) false = true
      ∧ (get_status halted_bus).1 = { stop := 0x80, interrupt := 0x80, calibration := 0x15 }
      ∧ (get_status (write_time (get_status halted_bus).2 (calendar 2025 1 1 0 0 0)
          (get_status halted_bus).1)).1 = { stop := 0, interrupt := 0, calibration := 0x15 } := by
  decide

/-- Claim C3, counterexample: the 23 bytes `2025-01-01 00:00:00 UTC` are not of
the exact format (19 bytes, or 20 with a final newline), yet `rtc_write` returns
19, not `-EINVAL`, and writes the six time registers: only the first 19 bytes
are copied and examined. -/
theorem rtc_write_accepts_longer_input :
    exact_format (bytes "2025-01-01 00:00:00 UTC") = false
      ∧ 19 ≤ (bytes "2025-01-01 00:00:00 UTC").length
      ∧ (rtc_write (open_driver blank_bus) (bytes "2025-01-01 00:00:00 UTC")).1 = 19
      ∧ (rtc_write (open_driver blank_bus) (bytes "2025-01-01 00:00:00 UTC")).2.bus.calls
          = [BusCall.read 0, BusCall.read 1, BusCall.read 7, BusCall.write 0 0x00,
             BusCall.write 1 0x00, BusCall.write 2 0x00, BusCall.write 4 0x01,
             BusCall.write 5 0x01, BusCall.write 6 0x25] := by
  decide

/-- Claim C3, amended: for every user input of at least 19 bytes whose first 19
bytes have a wrong separator at one of the positions 4, 7, 10, 13, 16 or a byte
that is not an ASCII decimal digit at one of the positions 0-3, 5-6, 11-12,
14-15, 17-18, `rtc_write` returns `-EINVAL` and leaves the driver state as it
was: no register is read or written.  Bytes after the 19th are not examined. -/
theorem rtc_write_rejects_malformed (st : Driver) (user : List Nat)
    (hlen : 19 ≤ user.length)
    (hbad : user.getD 4 0 ≠ 45 ∨ user.getD 7 0 ≠ 45 ∨ user.getD 10 0 ≠ 32
      ∨ user.getD 13 0 ≠ 58 ∨ user.getD 16 0 ≠ 58
      ∨ ∃ i ∈ [0, 1, 2, 3, 5, 6, 11, 12, 14, 15, 17, 18], isdigit (user.getD i 0) = false) :
    rtc_write st user = (-EINVAL, st) := by
  have hmax : (bytes "YYYY-MM-DD hh:mm:ss").length = 19 := by decide
  unfold rtc_write
  simp only [hmax]
  rw [if_neg (by omega)]
  by_cases hvs : is_valid_time_string (user.take 19) 19 = true
  · have hfmt := (is_valid_time_string_iff _ _).1 hvs
    obtain ⟨-, s4, s7, s10, s13, s16, hd⟩ := hfmt
    rw [getD_take _ _ _ (by decide)] at s4 s7 s10 s13 s16
    have hdig : ∀ i ∈ checked_digit_positions, isdigit (user.getD i 0) = true := by
      intro i hi
      have hi19 : i < 19 := by
        simp [checked_digit_positions] at hi
        omega
      rw [← getD_take user 19 i hi19]
      exact hd i hi
    have h3 : isdigit (user.getD 3 0) = false := by
      rcases hbad with h | h | h | h | h | ⟨i, hi, hbad⟩
      · exact absurd s4 h
      · exact absurd s7 h
      · exact absurd s10 h
      · exact absurd s13 h
      · exact absurd s16 h
      · by_cases h3 : i = 3
        · rw [← h3]; exact hbad
        · have : i ∈ checked_digit_positions := by
            simp [checked_digit_positions] at hi ⊢
            omega
          rw [hdig i this] at hbad
          exact absurd hbad (by decide)
    have hyear : (parse_time (user.take 19) 19).tm_year < 1000 := by
      show simple_strtol [(user.take 19).getD 0 0, (user.take 19).getD 1 0,
        (user.take 19).getD 2 0, (user.take 19).getD 3 0] 10 < 1000
      rw [getD_take _ _ _ (by decide), getD_take _ _ _ (by decide),
        getD_take _ _ _ (by decide), getD_take _ _ _ (by decide)]
      exact strtol_three_digits _ _ _ _ (hdig 0 (by decide)) (hdig 1 (by decide))
        (hdig 2 (by decide)) h3
    have hinv := is_valid_time_year_low (parse_time (user.take 19) 19) false (by omega)
    simp [hvs, hinv]
  · simp [hvs]

/-- Witness for claim C3 (amended): the input `2024/03/05 13:45:09` has a wrong
separator at position 4 and is rejected without touching the driver state. -/
theorem rtc_write_rejects_malformed_witness :
    19 ≤ (bytes "2024/03/05 13:45:09").length
      ∧ (bytes "2024/03/05 13:45:09").getD 4 0 ≠ 45
      ∧ rtc_write (open_driver blank_bus) (bytes "2024/03/05 13:45:09")
          = (-EINVAL, open_driver blank_bus) :=
  ⟨by decide, by decide,
    rtc_write_rejects_malformed (open_driver blank_bus) (bytes "2024/03/05 13:45:09")
      (by decide) (Or.inl (by decide))⟩

/-- Claim C4: no hardware access unless the time is actually set.  For every
driver state, input and ioctl payload: an input shorter than 19 bytes gives the
input length as result, an input whose first 19 bytes fail
`is_valid_time_string` gives `-EINVAL`, and one that parses to a time rejected
by `is_valid_time(_, false)` gives `-EINVAL`, each with the driver state
(registers, call log, `is_reading`) unchanged; whenever `rtc_write` does not
return 19 the state is unchanged and no bus call was issued; and `ioctl`
`RTC_SET_TIME` with a converted payload rejected by `is_valid_time(_, true)`
returns -1 with the state unchanged when the semaphore is free, and does not get
past `down` otherwise. -/
theorem no_bus_access_unless_time_set (st : Driver) (user : List Nat) (arg : rtc_time) :
    (user.length < 19 → rtc_write st user = ((user.length : Int), st))
      ∧ (19 ≤ user.length → is_valid_time_string (user.take 19) 19 = false →
          rtc_write st user = (-EINVAL, st))
      ∧ (19 ≤ user.length → is_valid_time_string (user.take 19) 19 = true →
          is_valid_time (parse_time (user.take 19) 19) false = false →
          rtc_write st user = (-EINVAL, st))
      ∧ ((rtc_write st user).1 ≠ 19 →
          (rtc_write st user).2 = st ∧ (rtc_write st user).2.bus.calls = st.bus.calls)
      ∧ (is_valid_time (set_time_payload arg) true = false →
          (0 < st.file_lock → rtc_ioctl st IoctlCmd.RTC_SET_TIME arg = some (-1, st, arg))
          ∧ (st.file_lock = 0 → rtc_ioctl st IoctlCmd.RTC_SET_TIME arg = none)) := by
  refine ⟨rtc_write_short st user, rtc_write_bad_format st user, rtc_write_bad_time st user,
    ?_, ?_⟩
  · intro hne
    by_cases hlen : user.length < 19
    · rw [rtc_write_short st user hlen]
      exact ⟨rfl, rfl⟩
    · have hge : 19 ≤ user.length := by omega
      cases hf : is_valid_time_string (user.take 19) 19
      · rw [rtc_write_bad_format st user hge hf]
        exact ⟨rfl, rfl⟩
      · cases hv : is_valid_time (parse_time (user.take 19) 19) false
        · rw [rtc_write_bad_time st user hge hf hv]
          exact ⟨rfl, rfl⟩
        · rw [rtc_write_accepts st user hge hf hv] at hne
          exact absurd rfl hne
  · intro hv
    exact ⟨fun h => rtc_ioctl_set_time_rejected st arg h hv,
      fun h => (rtc_ioctl_blocked st arg h).2⟩

/-- Witness for claim C4: a 10-byte input is reported as 10 with the driver
state unchanged, and setting 2039-01-01 00:00:00 through `ioctl` returns -1 with
the driver state unchanged. -/
theorem no_bus_access_unless_time_set_witness :
    (bytes "2025-01-01").length < 19
      ∧ rtc_write (open_driver blank_bus) (bytes "2025-01-01") = (10, open_driver blank_bus)
      ∧ is_valid_time (set_time_payload (calendar 139 0 1 0 0 0)) true = false
      ∧ rtc_ioctl (initial_driver blank_bus) IoctlCmd.RTC_SET_TIME (calendar 139 0 1 0 0 0)
          = some (-1, initial_driver blank_bus, calendar 139 0 1 0 0 0) :=
  ⟨by decide,
    (no_bus_access_unless_time_set (open_driver blank_bus) (bytes "2025-01-01")
      (calendar 139 0 1 0 0 0)).1 (by decide),
    by decide,
    ((no_bus_access_unless_time_set (initial_driver blank_bus) (bytes "2025-01-01")
      (calendar 139 0 1 0 0 0)).2.2.2.2 (by decide)).1 (by decide)⟩

/-- Claim C6: register round trip.  For every calendar time `t` accepted by
`is_valid_time(t, false)` with `2000 <= year <= 2099` and zero weekday,
year-day and DST fields, and every status whose stop and interrupt fields are 0
or 1, `read_time` after `write_time(bus, t, status)` on the store-and-echo bus
returns `t`. -/
theorem register_round_trip (b : Bus) (t : rtc_time) (status : rtc_status)
    (hv : is_valid_time t false = true) (_hy : 2000 ≤ t.tm_year ∧ t.tm_year ≤ 2099)
    (hz : t.tm_wday = 0 ∧ t.tm_yday = 0 ∧ t.tm_isdst = 0)
    (hs : status.stop = 0 ∨ status.stop = 1)
    (hi : status.interrupt = 0 ∨ status.interrupt = 1) :
    (read_time (write_time b t status)).1 = t := by
  have ht := (is_valid_time_false_iff t).1 hv
  have hs1 : Int.land status.stop 1 = 0 ∨ Int.land status.stop 1 = 1 := by
    rcases hs with h | h <;> rw [h]
    · exact Or.inl rfl
    · exact Or.inr rfl
  have hi1 : Int.land status.interrupt 1 = 0 ∨ Int.land status.interrupt 1 = 1 := by
    rcases hi with h | h <;> rw [h]
    · exact Or.inl rfl
    · exact Or.inr rfl
  rw [read_write_time b t status ht hs1 hi1]
  exact clear_unused_eq t hz

/-- Witness for claim C6: 2024-02-29 13:45:09 written with the stop bit set is
read back unchanged. -/
theorem register_round_trip_witness :
    is_valid_time (calendar 2024 2 29 13 45 9) false = true
      ∧ (read_time (write_time blank_bus (calendar 2024 2 29 13 45 9)
          { stop := 1, interrupt := 0, calibration := 0 })).1 = calendar 2024 2 29 13 45 9 :=
  ⟨by decide,
    register_round_trip blank_bus (calendar 2024 2 29 13 45 9)
      { stop := 1, interrupt := 0, calibration := 0 } (by decide) (by decide)
      ⟨rfl, rfl, rfl⟩ (Or.inr rfl) (Or.inl rfl)⟩

/-- Claim C7, the code at the failing input: `is_valid_time_string` returns
true for the 19 bytes `2024-01-xx 00:00:00` passed with length 19, whose bytes
at the positions 8 and 9 are not decimal digits: the date check tests the range
[11,13) where the day range [8,10) belongs. -/
theorem is_valid_time_string_accepts_letters_in_day :
    is_valid_time_string (bytes "2024-01-xx 00:00:00") 19 = true
      ∧ isdigit ((bytes "2024-01-xx 00:00:00").getD 8 0) = false
      ∧ isdigit ((bytes "2024-01-xx 00:00:00").getD 9 0) = false := by
  decide

/-- Claim C8: strict-epoch validation.  For every calendar time `t`,
`is_valid_time(t, true)` is true if and only if `is_valid_time(t, false)` is
true and either `year < 2038`, or `year = 2038` with `month <= 1`, `day <= 19`,
`hour <= 3`, `minute <= 14` and `second <= 8`; every year above 2038 is
rejected; 2038-01-19 03:14:08 is accepted, 2038-01-19 03:14:09 and
2039-01-01 00:00:00 are rejected. -/
theorem strict_epoch_validation :
    (∀ t : rtc_time, is_valid_time t true = true ↔
      (is_valid_time t false = true
        ∧ (t.tm_year < 2038 ∨ (t.tm_year = 2038 ∧ t.tm_mon ≤ 1 ∧ t.tm_mday ≤ 19
            ∧ t.tm_hour ≤ 3 ∧ t.tm_min ≤ 14 ∧ t.tm_sec ≤ 8))))
      ∧ (∀ t : rtc_time, t.tm_year > 2038 → is_valid_time t true = false)
      ∧ is_valid_time (calendar 2038 1 19 3 14 8) true = true
      ∧ is_valid_time (calendar 2038 1 19 3 14 9) true = false
      ∧ is_valid_time (calendar 2039 1 1 0 0 0) true = false := by
  refine ⟨?_, ?_, by decide, by decide, by decide⟩
  · intro t
    rw [is_valid_time_strict_eq]
    simp
  · intro t h
    rw [is_valid_time_strict_eq]
    simp
    intro _
    omega

/-- Claim C9: binary set/get round trip on the store-and-echo bus, with the
semaphore free so that `down` returns.  For every payload `p` in the exchange
convention (month 0-based, year as offset from 1900, weekday, year-day and DST
zero) whose converted time (month + 1, year + 1900) passes
`is_valid_time(_, true)`, `ioctl` `RTC_SET_TIME` returns 0 and a following
`ioctl` `RTC_RD_TIME` returns 0 and delivers a record equal to `p`, whatever
the caller's buffer held before. -/
theorem ioctl_set_get_round_trip (st : Driver) (p buffer : rtc_time)
    (hlock : 0 < st.file_lock)
    (hz : p.tm_wday = 0 ∧ p.tm_yday = 0 ∧ p.tm_isdst = 0)
    (hv : is_valid_time { p with tm_mon := p.tm_mon + 1, tm_year := p.tm_year + 1900 } true
      = true) :
    ∃ st1 st2 : Driver,
      rtc_ioctl st IoctlCmd.RTC_SET_TIME p = some (0, st1, p)
        ∧ rtc_ioctl st1 IoctlCmd.RTC_RD_TIME buffer = some (0, st2, p) := by
  have hvf : is_valid_time { p with tm_mon := p.tm_mon + 1, tm_year := p.tm_year + 1900 } false
      = true := by
    rw [is_valid_time_strict_eq] at hv
    simp only [Bool.and_eq_true] at hv
    exact hv.1
  have ht := (is_valid_time_false_iff _).1 hvf
  obtain ⟨⟨hy0, hy1⟩, ⟨hm0, hm1⟩, -⟩ := ht
  simp only at hy0 hy1 hm0 hm1
  have hpay : set_time_payload p
      = { p with tm_mon := p.tm_mon + 1, tm_year := p.tm_year + 1900 } := by
    unfold set_time_payload
    rw [wrap32_id (p.tm_mon + 1) (by omega) (by omega),
      wrap32_id (p.tm_year + 1900) (by omega) (by omega)]
  have hset := rtc_ioctl_set_time_accepted st p hlock (by rw [hpay]; exact hv)
  rw [hpay] at hset
  have hlow := get_status_low_bits st.bus
  have hrt := read_write_time (get_status st.bus).2
    { p with tm_mon := p.tm_mon + 1, tm_year := p.tm_year + 1900 } (get_status st.bus).1
    ((is_valid_time_false_iff _).1 hvf) (Or.inl hlow.1) (Or.inl hlow.2)
  have hback : rd_time_payload
      (clear_unused { p with tm_mon := p.tm_mon + 1, tm_year := p.tm_year + 1900 }) = p := by
    cases p
    simp only [rd_time_payload, clear_unused] at hz ⊢
    obtain ⟨h1, h2, h3⟩ := hz
    subst h1 h2 h3
    simp
  generalize hst1 : ({ st with
    bus := write_time (get_status st.bus).2
      { p with tm_mon := p.tm_mon + 1, tm_year := p.tm_year + 1900 } (get_status st.bus).1 }
      : Driver) = st1 at hset
  have hb1 : st1.bus = write_time (get_status st.bus).2
      { p with tm_mon := p.tm_mon + 1, tm_year := p.tm_year + 1900 } (get_status st.bus).1 := by
    rw [← hst1]
  have hl1 : 0 < st1.file_lock := by rw [← hst1]; exact hlock
  refine ⟨st1, { st1 with bus := (read_time st1.bus).2 }, hset, ?_⟩
  rw [rtc_ioctl_rd_time st1 buffer hl1, hb1, hrt, hback]

/-- Witness for claim C9: the payload of 2038-01-19 03:14:08 (month 0, year 138)
is set and read back unchanged. -/
theorem ioctl_set_get_round_trip_witness :
    0 < (initial_driver blank_bus).file_lock
      ∧ is_valid_time (calendar 2038 1 19 3 14 8) true = true
      ∧ ∃ st1 st2 : Driver,
          rtc_ioctl (initial_driver blank_bus) IoctlCmd.RTC_SET_TIME (calendar 138 0 19 3 14 8)
            = some (0, st1, calendar 138 0 19 3 14 8)
          ∧ rtc_ioctl st1 IoctlCmd.RTC_RD_TIME (calendar 0 0 0 0 0 0)
            = some (0, st2, calendar 138 0 19 3 14 8) :=
  ⟨by decide, by decide,
    ioctl_set_get_round_trip (initial_driver blank_bus) (calendar 138 0 19 3 14 8)
      (calendar 0 0 0 0 0 0) (by decide) ⟨rfl, rfl, rfl⟩ (by decide)⟩

/-- Claim C10, the code at the failing input: after `rtc_open` on the freshly
loaded driver the semaphore count is 0, and in that state both `ioctl` commands
begin with a `down` on the semaphore, which does not return. -/
theorem rtc_ioctl_blocks_in_open_session :
    rtc_open (initial_driver blank_bus) = some (0, open_driver blank_bus)
      ∧ (open_driver blank_bus).file_lock = 0
      ∧ rtc_ioctl (open_driver blank_bus) IoctlCmd.RTC_RD_TIME (calendar 0 0 0 0 0 0) = none
      ∧ rtc_ioctl (open_driver blank_bus) IoctlCmd.RTC_SET_TIME (calendar 125 0 1 0 0 0) = none :=
  ⟨rfl, rfl, rfl, rfl⟩

/-- Claim C11: the one-shot read state machine.  For every driver state:
(1) a read while `is_reading` is set returns 0 bytes and leaves the whole state,
bus call log included, as it was; (2) a read while the flag is clear sets it;
(3) `rtc_open` returns when the semaphore is free, whenever it returns the flag
is clear, and `rtc_close` leaves the flag clear; (4) `rtc_write` and every
`rtc_ioctl` that returns leave the flag as it was.  Consequently, among the
operations run between an open and the next close, at most one read returns a
non-zero byte count. -/
theorem one_shot_read_state_machine (st : Driver) (user : List Nat) (cmd : IoctlCmd)
    (arg : rtc_time) (ops : List SessionOp) :
    (st.is_reading = true → rtc_read st = (st, some (0, [])))
      ∧ (st.is_reading = false → (rtc_read st).1.is_reading = true)
      ∧ (0 < st.file_lock → ∃ st1, rtc_open st = some (0, st1))
      ∧ (∀ r, rtc_open st = some r → r.2.is_reading = false)
      ∧ (rtc_close st).2.is_reading = false
      ∧ (rtc_write st user).2.is_reading = st.is_reading
      ∧ (∀ r, rtc_ioctl st cmd arg = some r → r.2.1.is_reading = st.is_reading)
      ∧ (∀ r, rtc_open st = some r → nonzero_reads r.2 ops ≤ 1) := by
  refine ⟨rtc_read_again st, fun _ => rtc_read_flag st, ?_, ?_, rfl, rtc_write_flag st user,
    rtc_ioctl_flag st cmd arg, fun r _ => nonzero_reads_le_one ops r.2⟩
  · intro h
    unfold rtc_open down
    rw [if_neg (by omega)]
    exact ⟨_, rfl⟩
  · intro r h
    unfold rtc_open at h
    cases hd : down st.file_lock with
    | none => rw [hd] at h; simp at h
    | some c =>
      rw [hd] at h
      simp only [Option.some.injEq] at h
      rw [← h]

/-- Witness for claim C11: in a session on a blank chip, after a write of
`2025-01-01 00:00:00`, exactly one of three reads returns bytes. -/
theorem one_shot_read_state_machine_witness :
    rtc_open (initial_driver blank_bus) = some (0, open_driver blank_bus)
      ∧ nonzero_reads (open_driver blank_bus)
          [SessionOp.write (bytes "2025-01-01 00:00:00"), SessionOp.read, SessionOp.read,
           SessionOp.read] = 1
      ∧ nonzero_reads (open_driver blank_bus)
          [SessionOp.write (bytes "2025-01-01 00:00:00"), SessionOp.read, SessionOp.read,
           SessionOp.read] ≤ 1 :=
  ⟨rfl, by decide,
    (one_shot_read_state_machine (initial_driver blank_bus) [] (IoctlCmd.other 0)
      (calendar 0 0 0 0 0 0)
      [SessionOp.write (bytes "2025-01-01 00:00:00"), SessionOp.read, SessionOp.read,
       SessionOp.read]).2.2.2.2.2.2.2 (0, open_driver blank_bus) rfl⟩

/-- Claim C12: `is_valid_time_string` accepts every 19-character text of the
form `dddd-dd-dd dd:dd:dd` passed with length 19, and the same text followed by
a newline passed with length 20; it rejects every input passed with a length
other than 19 and 20 and every input with a wrong separator at one of the
positions 4, 7, 10, 13, 16.  It accepts `2024-03-05 13:45:09` with and without
the newline, and rejects `2024/03/05 13:45:09`, `24-03-05 13:45:09` and every
input of length 18. -/
theorem is_valid_time_string_accepts_well_formed :
    (∀ s : List Nat, is_time_text s = true →
        is_valid_time_string s 19 = true ∧ is_valid_time_string (s ++ [10]) 20 = true)
      ∧ (∀ (input : List Nat) (n : Nat), n ≠ 19 → n ≠ 20 →
          is_valid_time_string input n = false)
      ∧ (∀ (input : List Nat) (n : Nat),
          (input.getD 4 0 ≠ 45 ∨ input.getD 7 0 ≠ 45 ∨ input.getD 10 0 ≠ 32
            ∨ input.getD 13 0 ≠ 58 ∨ input.getD 16 0 ≠ 58) →
          is_valid_time_string input n = false)
      ∧ is_valid_time_string (bytes "2024-03-05 13:45:09") 19 = true
      ∧ is_valid_time_string (bytes "2024-03-05 13:45:09\n") 20 = true
      ∧ is_valid_time_string (bytes "2024/03/05 13:45:09") 19 = false
      ∧ is_valid_time_string (bytes "24-03-05 13:45:09") 17 = false
      ∧ (∀ input : List Nat, input.length = 18 →
          is_valid_time_string input input.length = false) := by
  refine ⟨?_, is_valid_time_string_bad_length, is_valid_time_string_bad_separator,
    by decide, by decide, by decide, by decide, ?_⟩
  · intro s hs
    obtain ⟨hlen, s4, s7, s10, s13, s16, hd⟩ := (is_time_text_iff s).1 hs
    constructor
    · rw [is_valid_time_string_iff]
      exact ⟨Or.inl rfl, s4, s7, s10, s13, s16,
        fun i hi => hd i (checked_positions_sub i hi).1⟩
    · rw [is_valid_time_string_iff]
      refine ⟨Or.inr rfl, ?_, ?_, ?_, ?_, ?_, ?_⟩
      · rw [getD_append_left s _ 4 (by omega)]; exact s4
      · rw [getD_append_left s _ 7 (by omega)]; exact s7
      · rw [getD_append_left s _ 10 (by omega)]; exact s10
      · rw [getD_append_left s _ 13 (by omega)]; exact s13
      · rw [getD_append_left s _ 16 (by omega)]; exact s16
      · intro i hi
        have hi' := checked_positions_sub i hi
        rw [getD_append_left s _ i (by omega)]
        exact hd i hi'.1
  · intro input h
    exact is_valid_time_string_bad_length input _ (by omega) (by omega)

/-- Claim C13: for every 19-character text `s` of the form
`dddd-dd-dd dd:dd:dd`, `parse_time(s)` has as year, month, day of month, hour,
minute and second the base-10 values of the character ranges [0,4), [5,7),
[8,10), [11,13), [14,16), [17,19) of `s`, and zero weekday, year-day and DST
fields. -/
theorem parse_time_reads_decimal_fields (s : List Nat) (hs : is_time_text s = true) :
    parse_time s 19 =
      calendar (decimal_value s 0 4) (decimal_value s 5 7) (decimal_value s 8 10)
        (decimal_value s 11 13) (decimal_value s 14 16) (decimal_value s 17 19) := by
  obtain ⟨-, -, -, -, -, -, hd⟩ := (is_time_text_iff s).1 hs
  have d : ∀ i ∈ [0, 1, 2, 3, 5, 6, 8, 9, 11, 12, 14, 15, 17, 18],
      isdigit (s.getD i 0) = true := hd
  have ey := strtol_four_digits _ _ _ _ (d 0 (by decide)) (d 1 (by decide)) (d 2 (by decide))
    (d 3 (by decide))
  have emo := strtol_two_digits _ _ (d 5 (by decide)) (d 6 (by decide))
  have ed := strtol_two_digits _ _ (d 8 (by decide)) (d 9 (by decide))
  have eh := strtol_two_digits _ _ (d 11 (by decide)) (d 12 (by decide))
  have emi := strtol_two_digits _ _ (d 14 (by decide)) (d 15 (by decide))
  have es := strtol_two_digits _ _ (d 17 (by decide)) (d 18 (by decide))
  simp only [parse_time, ey, emo, ed, eh, emi, es]
  rfl

/-- Witness for claim C13: `2024-03-05 13:45:09` parses to year 2024, month 3,
day 5, hour 13, minute 45, second 9. -/
theorem parse_time_reads_decimal_fields_witness :
    is_time_text (bytes "2024-03-05 13:45:09") = true
      ∧ parse_time (bytes "2024-03-05 13:45:09") 19 = calendar 2024 3 5 13 45 9 :=
  ⟨by decide, parse_time_reads_decimal_fields (bytes "2024-03-05 13:45:09") (by decide)⟩

/-- Claim C14: the BCD round trip.  `BCD2BIN(b)` is `10 * (b >> 4) + (b & 0x0F)`
and `BIN2BCD(v)` is `((v / 10) << 4) + v % 10`; for every `v` from 0 to 99,
`BIN2BCD(v)` fits in one byte, both its nibbles are at most 9, and
`BCD2BIN(BIN2BCD(v)) = v`. -/
theorem bcd_round_trip :
    (∀ b : Int, BCD2BIN b = 10 * (b >>> (4 : Int)) + Int.land b 0x0F)
      ∧ (∀ v : Int, BIN2BCD v = ((Int.tdiv v 10) <<< (4 : Int)) + Int.tmod v 10)
      ∧ ∀ v : Int, 0 ≤ v → v ≤ 99 →
          0 ≤ BIN2BCD v ∧ BIN2BCD v < 256
            ∧ Int.land (BIN2BCD v) 0x0F ≤ 9 ∧ BIN2BCD v >>> (4 : Int) ≤ 9
            ∧ BCD2BIN (BIN2BCD v) = v := by
  refine ⟨?_, fun _ => rfl, ?_⟩
  · intro b
    unfold BCD2BIN
    omega
  · intro v h0 h1
    obtain ⟨n, rfl⟩ := Int.eq_ofNat_of_zero_le h0
    exact bcd_nat n (by omega)

/-- Witness for claim C14: 59 is encoded as 0x59 and decoded back to 59. -/
theorem bcd_round_trip_witness :
    (0 : Int) ≤ 59 ∧ (59 : Int) ≤ 99 ∧ BIN2BCD 59 = 0x59 ∧ BCD2BIN (BIN2BCD 59) = 59 :=
  ⟨by decide, by decide, by decide, (bcd_round_trip.2.2 59 (by decide) (by decide)).2.2.2.2⟩

/-- Claim C15: for every year `y`, `is_leap_year(y)` is true exactly when
(`y % 4 = 0` and `y % 100 != 0`) or `y % 400 = 0`, and
`is_leap_year(y) = is_leap_year(y + 400)`. -/
theorem is_leap_year_gregorian_periodic (y : Nat) :
    (is_leap_year y = true ↔ (y % 4 = 0 ∧ y % 100 ≠ 0) ∨ y % 400 = 0)
      ∧ is_leap_year y = is_leap_year (y + 400) := by
  have h1 : ∀ z : Nat, is_leap_year z = true ↔ (z % 4 = 0 ∧ z % 100 ≠ 0) ∨ z % 400 = 0 := by
    intro z
    simp [is_leap_year]
  refine ⟨h1 y, ?_⟩
  rw [Bool.eq_iff_iff, h1, h1]
  omega

/-- Claim C16: for every bus state, every time accepted by `is_valid_time`
(strict or not) and every status with stop and interrupt each 0 or 1, after
`write_time` bit 7 of register 0 equals `status.stop`, bit 7 of register 1
equals `status.interrupt`, the calls added to the log are the six writes of
`write_time_values` to the registers 0, 1, 2, 4, 5, 6 in that order, and every
other register, among them 3 (weekday) and 7 (calibration), is unchanged. -/
theorem write_time_frame (b : Bus) (t : rtc_time) (s : rtc_status) (strict : Bool)
    (hv : is_valid_time t strict = true) (hs : s.stop = 0 ∨ s.stop = 1)
    (hi : s.interrupt = 0 ∨ s.interrupt = 1) :
    Int.land ((((write_time b t s).regs 0 : Nat) : Int) >>> (7 : Int)) 1 = s.stop
      ∧ Int.land ((((write_time b t s).regs 1 : Nat) : Int) >>> (7 : Int)) 1 = s.interrupt
      ∧ (write_time b t s).calls =
          b.calls ++ (write_time_values t s).map
            (fun p => BusCall.write p.1 (p.2 % 256).toNat)
      ∧ (write_time_values t s).map Prod.fst = [0, 1, 2, 4, 5, 6]
      ∧ (write_time b t s).regs 3 = b.regs 3
      ∧ (write_time b t s).regs 7 = b.regs 7
      ∧ ∀ a : Nat, a ∉ [0, 1, 2, 4, 5, 6] → (write_time b t s).regs a = b.regs a := by
  obtain ⟨-, -, -, -, ⟨hn0, hn1⟩, ⟨hs0, hs1⟩⟩ := is_valid_time_ranges t strict hv
  refine ⟨?_, ?_, write_time_calls b t s, rfl, rfl, rfl, ?_⟩
  · have h := (status_bit t.tm_sec s.stop hs0 hs1 hs).1
    rw [write_time_regs]
    exact h
  · have h := (status_bit t.tm_min s.interrupt hn0 hn1 hi).1
    rw [write_time_regs]
    exact h
  · intro a ha
    simp only [List.mem_cons, List.mem_singleton, List.not_mem_nil, or_false, not_or] at ha
    obtain ⟨a0, a1, a2, a4, a5, a6⟩ := ha
    rw [write_time_regs]
    simp only [if_neg a0, if_neg a1, if_neg a2, if_neg a4, if_neg a5, if_neg a6]

/-- Witness for claim C16: writing 2024-02-29 13:45:09 with the stop bit set
issues the six writes 0x89, 0x45, 0x13, 0x29, 0x02, 0x24 and keeps the
calibration register. -/
theorem write_time_frame_witness :
    is_valid_time (calendar 2024 2 29 13 45 9) false = true
      ∧ (write_time halted_bus (calendar 2024 2 29 13 45 9)
          { stop := 1, interrupt := 0, calibration := 0 }).calls
          = [BusCall.write 0 0x89, BusCall.write 1 0x45, BusCall.write 2 0x13,
             BusCall.write 4 0x29, BusCall.write 5 0x02, BusCall.write 6 0x24]
      ∧ (write_time halted_bus (calendar 2024 2 29 13 45 9)
          { stop := 1, interrupt := 0, calibration := 0 }).regs 7 = 0x15 :=
  ⟨by decide,
    (write_time_frame halted_bus (calendar 2024 2 29 13 45 9)
      { stop := 1, interrupt := 0, calibration := 0 } false (by decide) (Or.inr rfl)
      (Or.inl rfl)).2.2.1,
    (write_time_frame halted_bus (calendar 2024 2 29 13 45 9)
      { stop := 1, interrupt := 0, calibration := 0 } false (by decide) (Or.inr rfl)
      (Or.inl rfl)).2.2.2.2.2.1⟩

/-- Claim C17, the code at the failing input: for 2025-01-01 00:00:00 and the
month name `Januar` the text produced by the format has 25 characters and the
buffer `result` has 25 bytes, so that the text with its terminating NUL needs 26;
the same one-byte shortfall holds for each of the twelve month names. -/
theorem display_buffer_one_byte_short :
    (display_line (calendar 2025 1 1 0 0 0) (bytes "Januar")).length = 25
      ∧ string_date_length (bytes "Januar") = 25
      ∧ ∀ name ∈ months,
          string_date_length name
            < (display_line (calendar 2025 1 1 0 0 0) name).length + 1 := by
  decide

/-- Claim C18, the code at the failing input: on a chip whose registers all hold
zero `read_time` returns month 0, and on a chip whose register 5 holds 0x1F it
returns month 25; in both cases the index `tm_mon - 1` used by `rtc_read` lies
outside the table `months`. -/
theorem read_time_month_out_of_table :
    (read_time blank_bus).1.tm_mon = 0
      ∧ (rtc_read (open_driver blank_bus)).2 = none
      ∧ (read_time { regs := fun _ => 0x1F, calls := [] }).1.tm_mon = 25
      ∧ (rtc_read (open_driver { regs := fun _ => 0x1F, calls := [] })).2 = none := by
  decide

/-- Claim C19: for every calendar time `t`, `is_valid_time(t, false)` is true
if and only if `2000 <= year <= 2399`, `1 <= month <= 12`,
`1 <= day_of_month <= 31`, `0 <= hour <= 23`, `0 <= minute <= 59` and
`0 <= second <= 59`; the comparison of the month-length step,
`tm_mon <= month_max`, holds for every month from 1 to 12 whichever of the two
tables is selected. -/
theorem non_strict_acceptance_set (t : rtc_time) :
    (is_valid_time t false = true ↔
        2000 ≤ t.tm_year ∧ t.tm_year ≤ 2399 ∧ 1 ≤ t.tm_mon ∧ t.tm_mon ≤ 12
          ∧ 1 ≤ t.tm_mday ∧ t.tm_mday ≤ 31 ∧ 0 ≤ t.tm_hour ∧ t.tm_hour ≤ 23
          ∧ 0 ≤ t.tm_min ∧ t.tm_min ≤ 59 ∧ 0 ≤ t.tm_sec ∧ t.tm_sec ≤ 59)
      ∧ ∀ leap : Bool, 1 ≤ t.tm_mon → t.tm_mon ≤ 12 →
          t.tm_mon ≤ (if leap then month_days.getD (t.tm_mon - 1).toNat 0
            else month_days_leap_year.getD (t.tm_mon - 1).toNat 0) := by
  refine ⟨?_, fun leap h1 h2 => month_step t.tm_mon h1 h2 leap⟩
  rw [is_valid_time_false_iff]
  unfold in_ranges
  tauto

/-- Claim C20: for every calendar time `t` accepted by `is_valid_time(t, false)`
with `2100 <= year <= 2399` and zero weekday, year-day and DST fields, and every
status with stop and interrupt each 0 or 1: the century `year / 100 - 20` lies
between 1 and 3, `write_time` stores it in bits 6-7 of register 5 and the BCD
month in the low 5 bits, each of the six values written lies between 0 and 255,
`read_time` afterwards returns `t`, and
`year = 2000 + 100 * century + year % 100`. -/
theorem century_packing (b : Bus) (t : rtc_time) (s : rtc_status)
    (hv : is_valid_time t false = true) (hy : 2100 ≤ t.tm_year ∧ t.tm_year ≤ 2399)
    (hz : t.tm_wday = 0 ∧ t.tm_yday = 0 ∧ t.tm_isdst = 0)
    (hs : s.stop = 0 ∨ s.stop = 1) (hi : s.interrupt = 0 ∨ s.interrupt = 1) :
    (1 ≤ Int.tdiv t.tm_year 100 - 20 ∧ Int.tdiv t.tm_year 100 - 20 ≤ 3)
      ∧ (((write_time b t s).regs 5 : Nat) : Int) >>> (6 : Int) = Int.tdiv t.tm_year 100 - 20
      ∧ Int.land (((write_time b t s).regs 5 : Nat) : Int) 0x1F = BIN2BCD t.tm_mon
      ∧ (∀ p ∈ write_time_values t s, 0 ≤ p.2 ∧ p.2 < 256)
      ∧ (read_time (write_time b t s)).1 = t
      ∧ t.tm_year = 2000 + 100 * (Int.tdiv t.tm_year 100 - 20) + Int.tmod t.tm_year 100 := by
  have ht := (is_valid_time_false_iff t).1 hv
  obtain ⟨⟨hy0, hy1⟩, ⟨hm0, hm1⟩, ⟨hd0, hd1⟩, ⟨hh0, hh1⟩, ⟨hn0, hn1⟩, ⟨hs0, hs1⟩⟩ := ht
  obtain ⟨y, hyy⟩ : ∃ y : Nat, t.tm_year = 2000 + (y : Int) :=
    ⟨(t.tm_year - 2000).toNat, by omega⟩
  obtain ⟨m, hm⟩ := Int.eq_ofNat_of_zero_le (show 0 ≤ t.tm_mon by omega)
  have hylt : y < 400 := by omega
  have hY := year_parts_nat y hylt
  have hC := century_field_nat (y / 100) (by omega) m (by omega)
  have hsec := status_bit t.tm_sec s.stop hs0 hs1 hs
  have hmin := status_bit t.tm_min s.interrupt hn0 hn1 hi
  have hhour := bcd_nat t.tm_hour.toNat (by omega)
  have hday := bcd_nat t.tm_mday.toNat (by omega)
  have hyr := bcd_nat (y % 100) (by omega)
  rw [Int.toNat_of_nonneg hh0] at hhour
  rw [Int.toNat_of_nonneg (by omega)] at hday
  have hs1' : Int.land s.stop 1 = 0 ∨ Int.land s.stop 1 = 1 := by
    rcases hs with h | h <;> rw [h]
    · exact Or.inl rfl
    · exact Or.inr rfl
  have hi1' : Int.land s.interrupt 1 = 0 ∨ Int.land s.interrupt 1 = 1 := by
    rcases hi with h | h <;> rw [h]
    · exact Or.inl rfl
    · exact Or.inr rfl
  refine ⟨?_, ?_, ?_, ?_, ?_, ?_⟩
  · rw [hyy, hY.1]
    omega
  · rw [write_time_regs]
    simp only [if_true, Nat.reduceEqDiff, if_false]
    rw [hyy, hY.1, hm]
    exact hC.1
  · rw [write_time_regs]
    simp only [if_true, Nat.reduceEqDiff, if_false]
    rw [hyy, hY.1, hm]
    exact hC.2.1
  · intro p hp
    simp only [write_time_values, List.mem_cons, List.mem_singleton, List.not_mem_nil,
      or_false] at hp
    rcases hp with h | h | h | h | h | h <;> rw [h] <;> simp only []
    · exact hsec.2
    · exact hmin.2
    · exact ⟨hhour.1, hhour.2.1⟩
    · exact ⟨hday.1, hday.2.1⟩
    · rw [hyy, hY.1, hm]
      exact hC.2.2
    · rw [hyy, hY.2]
      exact ⟨hyr.1, hyr.2.1⟩
  · rw [read_write_time b t s ⟨⟨hy0, hy1⟩, ⟨hm0, hm1⟩, ⟨hd0, hd1⟩, ⟨hh0, hh1⟩, ⟨hn0, hn1⟩,
      ⟨hs0, hs1⟩⟩ hs1' hi1']
    exact clear_unused_eq t hz
  · rw [hyy, hY.1, hY.2]
    omega

/-- Witness for claim C20: 2399-12-31 23:59:59 is stored with 0xD2 in register 5
and read back unchanged. -/
theorem century_packing_witness :
    is_valid_time (calendar 2399 12 31 23 59 59) false = true
      ∧ (write_time blank_bus (calendar 2399 12 31 23 59 59)
          { stop := 1, interrupt := 1, calibration := 0 }).regs 5 = 0xD2
      ∧ (read_time (write_time blank_bus (calendar 2399 12 31 23 59 59)
          { stop := 1, interrupt := 1, calibration := 0 })).1 = calendar 2399 12 31 23 59 59 :=
  ⟨by decide, by decide,
    (century_packing blank_bus (calendar 2399 12 31 23 59 59)
      { stop := 1, interrupt := 1, calibration := 0 } (by decide) (by decide)
      ⟨rfl, rfl, rfl⟩ (Or.inr rfl) (Or.inr rfl)).2.2.2.2.1⟩

end Rtc
